import Mathlib

/-!
Shallow embedding of the waywin Wayland backend's event-normalisation and
window-state machinery, together with proofs about the configure handshake,
redraw coalescing, focus exclusivity, key-repeat scheduling and event-loop
cancellation.

Sources embedded:
* `src/wayland_impl/window.rs` — per-window state (`WindowState`, `State`,
  `PendingConfigure`), the `XdgToplevel` / `XdgSurface` / `WlSurface` /
  `WpFractionalScaleV1` dispatch handlers, `reset_redraw`, `request_redraw`,
  and the `physical_size` / `logical_size` accessors.
* `src/wayland_impl/state/keyboard.rs` — `KeyboardState`, the `WlKeyboard`
  dispatch handler (focus, key transitions, repeat-info) and the calloop
  repeat-timer closure.
* `src/wayland_impl/state/pointer.rs` — `PointerState` and the `WlPointer`
  dispatch handler.
* `src/wayland_impl/mod.rs` — the `Waywin::run` loop: the per-iteration
  sweep over the weak window registry that drains each redraw flag into a
  Paint event via `WaywinState::hook`, and the `running` continue flag.

Modelling conventions: Rust `i32` becomes `Int`, `u32` (ids, key codes)
becomes `Nat`, and `f64` scale arithmetic is modelled over `ℚ` (the scales
the protocol produces are rationals `n/120` or small integers; `f64::round`
is modelled by `rustRound`, which agrees with it on the non-negative values
involved, and the `as u32` cast by `Int.toNat`, which like Rust saturates
below at 0). The xkbcommon keysym/text translation is a pure foreign table;
a key event is identified here by its raw hardware key code, which is all
the claims under study depend on.
-/

namespace Waywin

/-- Scroll direction (src/event/pointer.rs, `ScrollDirection`). -/
inductive ScrollDirection where
  | vertical
  | horizontal
deriving DecidableEq, Repr

/-- Pointer buttons (src/event/pointer.rs, `PointerButton`). -/
inductive PointerButton where
  | left
  | right
  | middle
  | forward
  | back
  | unknown (code : Nat)
deriving DecidableEq, Repr

/-- `impl From<u32> for PointerButton` (src/wayland_impl/state/pointer.rs). -/
def pointerButtonFrom (v : Nat) : PointerButton :=
  if v = 0x110 then .left
  else if v = 0x111 then .right
  else if v = 0x112 then .middle
  else if v = 0x114 then .forward
  else if v = 0x113 then .back
  else .unknown v

/-- The portable event vocabulary (src/event/mod.rs, `enum Event`).
`key` keeps the layout-independent raw key code; the keysym/text fields
computed through xkbcommon are not modelled. -/
inductive Ev where
  | paint
  | close
  | resized
  | newScaleFactor
  | focus (gained : Bool)
  | key (down : Bool) (keycode : Nat)
  | pointerEntered
  | pointerLeft
  | pointerMoved (x y : ℚ)
  | pointerButton (down : Bool) (button : PointerButton)
  | scroll (direction : ScrollDirection) (value : ℚ)
deriving DecidableEq, Repr

/-- A window-addressed event (`WaywinEvent::WindowEvent { event, window_id }`). -/
structure WEv where
  ev : Ev
  window_id : Nat
deriving DecidableEq, Repr

/-! ## Window state machine (src/wayland_impl/window.rs) -/

/-- Committed-plus-pending per-window state: the fields of `WindowState`
relevant to the configure/scale/redraw machinery (`state : State`,
`prev_state : State`, `configure : PendingConfigure`, `redraw : bool`),
flattened, plus the window id (`surface.id()`) and whether the
viewporter/fractional-scaling pair is bound (`viewport_scaling.is_some()`). -/
structure WinState where
  id : Nat
  size : Int × Int
  scale : ℚ
  prevSize : Int × Int
  prevScale : ℚ
  pendingSize : Option (Int × Int)
  redraw : Bool
  fullscreen : Bool
  hasViewportScaling : Bool
deriving DecidableEq, Repr

/-- `f64::round` (round half away from zero), modelled on ℚ as
`⌊q + 1/2⌋`, which agrees with it on the non-negative sizes involved. -/
def rustRound (q : ℚ) : ℤ :=
  (q + 1 / 2).floor

/-- `State::physical_size`: `((size.0 as f64 * scale).round() as u32, ...)`. -/
def physOf (size : Int × Int) (scale : ℚ) : Nat × Nat :=
  ((rustRound ((size.1 : ℚ) * scale)).toNat, (rustRound ((size.2 : ℚ) * scale)).toNat)

/-- The window's committed physical size (`Window::get_physical_size`). -/
def physical_size (w : WinState) : Nat × Nat :=
  physOf w.size w.scale

/-- `State::logical_size`: `((size.0 as f64 * scale).round() / scale, ...)`. -/
def logical_size (w : WinState) : ℚ × ℚ :=
  (((rustRound ((w.size.1 : ℚ) * w.scale) : ℤ) : ℚ) / w.scale,
   ((rustRound ((w.size.2 : ℚ) * w.scale) : ℤ) : ℚ) / w.scale)

/-- `WindowState::reset_redraw`: compare-and-clear read of the redraw flag. -/
def reset_redraw (w : WinState) : WinState × Bool :=
  ({w with redraw := false}, w.redraw)

/-- `Window::request_redraw`: sets the redraw flag (and wakes the loop). -/
def request_redraw (w : WinState) : WinState :=
  {w with redraw := true}

/-- Initial window state on creation (`Window::new`): speculative 800×600 at
scale 1.0, redraw pre-set so the first Paint is guaranteed. -/
def initialWinState (id : Nat) (hasViewportScaling : Bool) : WinState :=
  { id := id
    size := (800, 600)
    scale := 1
    prevSize := (800, 600)
    prevScale := 1
    pendingSize := none
    redraw := true
    fullscreen := false
    hasViewportScaling := hasViewportScaling }

/-- `xdg_toplevel::Event::Configure { width, height, .. }`: a non-degenerate
proposal overwrites the pending size, a degenerate one (either dimension 0)
clears it. No event is pushed. -/
def xdg_toplevel_configure (width height : Int) (w : WinState) : WinState × List WEv :=
  if ¬(width = 0 ∨ height = 0) then
    ({w with pendingSize := some (width, height)}, [])
  else
    ({w with pendingSize := none}, [])

/-- `xdg_surface::Event::Configure { serial }`: `ack_configure` then promote
the pending size into the committed size; with no pending proposal the
committed size is written back into pending. No event is pushed here. -/
def xdg_surface_configure (w : WinState) : WinState × List WEv :=
  match w.pendingSize with
  | some s => ({w with size := s}, [])
  | none => ({w with pendingSize := some w.size}, [])

/-- `xdg_toplevel::Event::Close`: pushes a Close event for this window. -/
def xdg_toplevel_close (w : WinState) : WinState × List WEv :=
  (w, [⟨Ev.close, w.id⟩])

/-- `wl_surface::Event::PreferredBufferScale { factor }`: ignored when the
fractional-scaling path is bound, otherwise the committed scale is set to
the integer factor directly. -/
def preferred_buffer_scale (factor : Int) (w : WinState) : WinState × List WEv :=
  if w.hasViewportScaling then (w, [])
  else ({w with scale := (factor : ℚ)}, [])

/-- `wp_fractional_scale_v1::Event::PreferredScale { scale }`: the committed
scale is set to `scale / 120` directly. -/
def preferred_fractional_scale (scale120 : Nat) (w : WinState) : WinState × List WEv :=
  ({w with scale := (scale120 : ℚ) / 120}, [])

/-- The window-addressed native notifications handled in
src/wayland_impl/window.rs. -/
inductive WinInput where
  | toplevelConfigure (width height : Int)
  | surfaceConfigure
  | toplevelClose
  | bufferScale (factor : Int)
  | fractionalScale (scale120 : Nat)
deriving DecidableEq, Repr

/-- One dispatch step of the window state machine. -/
def winStep : WinInput → WinState → WinState × List WEv
  | .toplevelConfigure width height, w => xdg_toplevel_configure width height w
  | .surfaceConfigure, w => xdg_surface_configure w
  | .toplevelClose, w => xdg_toplevel_close w
  | .bufferScale factor, w => preferred_buffer_scale factor w
  | .fractionalScale scale120, w => preferred_fractional_scale scale120 w

/-- Iterated configure acknowledgment (`xdg_surface::Event::Configure`
delivered `n` times with no intervening proposal). -/
def ackIter : Nat → WinState → WinState
  | 0, w => w
  | n + 1, w => ackIter n (xdg_surface_configure w).1

/-- Modelled from the spec: the delivering loop's per-window sweep step.
The snapshot's `Waywin::run` (src/wayland_impl/mod.rs) drains only the
redraw flag into a Paint event; the sweep that compares the committed
configuration against the previously announced one and emits the
NewScaleFactor / Resized deltas is part of the delivering loop that is not
in the source tree. Spec §4.5 step 2 ("compare committed-vs-previous-
committed to detect resize/scale deltas that must still be announced ...
and drain its redraw flag into a Paint event"), §4.2 ("a scale change ...
always marks the redraw flag and yields a NewScaleFactor event followed by
Resize if the physical size changed") and E2E scenario B (NewScaleFactor
before Resized before Paint) fix its behaviour. -/
def sweepWindow (w : WinState) : WinState × List WEv :=
  let scaleChanged : Bool := !decide (w.scale = w.prevScale)
  let sizeChanged : Bool := !decide (physOf w.size w.scale = physOf w.prevSize w.prevScale)
  let redrawNow : Bool := w.redraw || scaleChanged || sizeChanged
  ({w with prevSize := w.size, prevScale := w.scale, redraw := false},
   (if scaleChanged then [⟨Ev.newScaleFactor, w.id⟩] else []) ++
   (if sizeChanged then [⟨Ev.resized, w.id⟩] else []) ++
   (if redrawNow then [⟨Ev.paint, w.id⟩] else []))

/-! ## Event loop (src/wayland_impl/mod.rs, `Waywin::run`) -/

/-- One pass of the `windows.retain(...)` sweep of `Waywin::run`: for each
live window, `reset_redraw` and, when the flag was set, hand a Paint event
to the application callback through `WaywinState::hook`, which passes the
callback a mutable reference to the `running` flag. The callback is the
`cb` argument: it receives the event and the current flag and returns the
new flag. Delivery of later windows in the same sweep does not consult the
flag. Returns the updated windows, the delivered events in order, and the
final flag. -/
def deliverSweep (cb : WEv → Bool → Bool) : List WinState → Bool → List WinState × List WEv × Bool
  | [], r => ([], [], r)
  | w :: ws, r =>
    let pr := reset_redraw w
    if pr.2 then
      let r' := cb ⟨Ev.paint, w.id⟩ r
      let rest := deliverSweep cb ws r'
      (pr.1 :: rest.1, ⟨Ev.paint, w.id⟩ :: rest.2.1, rest.2.2)
    else
      let rest := deliverSweep cb ws r
      (pr.1 :: rest.1, rest.2.1, rest.2.2)

/-- The `while self.state.running` loop of `Waywin::run`, restricted to its
flag-and-delivery skeleton (the native dispatch step only feeds the state
machines modelled separately): the flag is consulted at the top of each
iteration; each iteration then runs one sweep. `fuel` bounds the number of
iterations so the function is total. -/
def runLoop (cb : WEv → Bool → Bool) : Nat → List WinState → Bool → List WinState × List WEv
  | 0, ws, _ => (ws, [])
  | fuel + 1, ws, r =>
    if r then
      let sw := deliverSweep cb ws r
      let rest := runLoop cb fuel sw.1 sw.2.2
      (rest.1, sw.2.1 ++ rest.2)
    else (ws, [])

/-! ## Keyboard state machine (src/wayland_impl/state/keyboard.rs) -/

/-- The compiled keymap / xkb state, abstracted to the one query the
dispatch handler makes of it: whether a key repeats
(`xkb_state.get_keymap().key_repeats(wayland_key)`). -/
structure Xkb where
  keyRepeats : Nat → Bool

/-- Compositor repeat parameters (`RepeatInfo { delay, repeat }`), in
milliseconds. -/
structure RepeatInfo where
  delay : Nat
  interval : Nat
deriving DecidableEq, Repr

/-- An armed repeat schedule (`RepeatState { token, key }`). The timer
closure re-emits the down event it captured at arming time; under the
key-code abstraction of `generate_down_event` that event is
`generate_down_event key` for the schedule's own key, so only the key is
stored. -/
structure RepeatSched where
  key : Nat
deriving DecidableEq, Repr

/-- `KeyboardState`. `armed` tracks whether the calloop timer source behind
`repeat_state.token` is still registered: `handle.remove` and a
`TimeoutAction::Drop` returned by the closure both deregister it (a `Drop`
leaves the `repeat_state` field behind as a stale token). -/
structure KeyboardState where
  repeat_info : Option RepeatInfo
  repeat_sched : Option RepeatSched
  armed : Bool
  focused_window : Option Nat
  xkb_state : Option Xkb

/-- `KeyboardState::default()`. -/
def kbInit : KeyboardState :=
  { repeat_info := none
    repeat_sched := none
    armed := false
    focused_window := none
    xkb_state := none }

/-- `generate_down_event`, with the xkbcommon keysym/text translation
abstracted to the raw key code. -/
def generate_down_event (key : Nat) : Ev :=
  Ev.key true key

/-- `generate_up_event`, likewise. -/
def generate_up_event (key : Nat) : Ev :=
  Ev.key false key

/-- The `wl_keyboard` notifications (plus the repeat-timer fire, which the
calloop loop delivers to the closure armed by a key-down). -/
inductive KbInput where
  | keymap (xkb : Option Xkb)
  | enter (surface : Nat)
  | leave (surface : Nat)
  | key (pressed : Bool) (keycode : Nat)
  | keyUnknownState
  | modifiers
  | repeatInfoEv (rate : Nat) (delay : Nat)
  | timerFire

/-- One dispatch step of `Dispatch<WlKeyboard, ()>::event` (and the repeat
timer closure, for `timerFire`). Mirrors the source case by case:

* `Keymap`: replaces the xkb state; no event.
* `Enter`: if a window is still recorded as focused, push `Focus(false)` to
  it first; then record and push `Focus(true)` for the new window. The
  repeat schedule is not touched.
* `Leave`: unconditionally cancel any repeat schedule; then, only if the
  leaving surface is the focused one, clear focus and push `Focus(false)`
  (otherwise it is only logged).
* Key press: unconditionally cancel any repeat schedule; drop the
  notification if no window is focused or no xkb state is loaded; otherwise
  push the down event and, if the keymap marks `keycode + 8` repeatable and
  repeat info is present, arm a schedule for this key carrying this event.
* Key release: drop the notification if no window is focused (the schedule
  is then not cancelled); otherwise cancel the schedule only if it belongs
  to this key (`take_if(|t| t.key == key)`), and push the up event if xkb
  state is loaded.
* Unknown key state: logged, dropped.
* `Modifiers`: updates the xkb mask only; no event.
* `RepeatInfo`: rate 0 clears the parameters and cancels any schedule;
  otherwise stores `{delay, 1000/rate}`.
* Timer fire (requires an armed schedule): if no window is focused the
  timer returns `Drop` (disarming, no event); else if repeat info is still
  present the captured down event is pushed to the *currently* focused
  window and the timer re-arms; else it returns `Drop`. -/
def kbStep : KbInput → KeyboardState → KeyboardState × List WEv
  | .keymap x, s => ({s with xkb_state := x}, [])
  | .enter i, s =>
    ({s with focused_window := some i},
     (match s.focused_window with
      | some old => [⟨Ev.focus false, old⟩]
      | none => []) ++ [⟨Ev.focus true, i⟩])
  | .leave i, s =>
    let s1 := {s with repeat_sched := none, armed := false}
    if s.focused_window = some i then
      ({s1 with focused_window := none}, [⟨Ev.focus false, i⟩])
    else
      (s1, [])
  | .key true keycode, s =>
    let s1 := {s with repeat_sched := none, armed := false}
    match s.focused_window with
    | none => (s1, [])
    | some i =>
      match s.xkb_state with
      | none => (s1, [])
      | some x =>
        let ev := generate_down_event keycode
        if x.keyRepeats (keycode + 8) then
          match s.repeat_info with
          | some _ =>
            ({s1 with repeat_sched := some ⟨keycode⟩, armed := true}, [⟨ev, i⟩])
          | none => (s1, [⟨ev, i⟩])
        else (s1, [⟨ev, i⟩])
  | .key false keycode, s =>
    match s.focused_window with
    | none => (s, [])
    | some i =>
      let s1 :=
        match s.repeat_sched with
        | some rs =>
          if rs.key = keycode then {s with repeat_sched := none, armed := false} else s
        | none => s
      match s.xkb_state with
      | none => (s1, [])
      | some _ => (s1, [⟨generate_up_event keycode, i⟩])
  | .keyUnknownState, s => (s, [])
  | .modifiers, s => (s, [])
  | .repeatInfoEv rate delay, s =>
    if rate = 0 then
      ({s with repeat_info := none, repeat_sched := none, armed := false}, [])
    else
      ({s with repeat_info := some ⟨delay, 1000 / rate⟩}, [])
  | .timerFire, s =>
    if s.armed then
      match s.repeat_sched with
      | none => (s, [])
      | some rs =>
        match s.focused_window with
        | none => ({s with armed := false}, [])
        | some i =>
          match s.repeat_info with
          | some _ => (s, [⟨generate_down_event rs.key, i⟩])
          | none => ({s with armed := false}, [])
    else (s, [])

/-- Run the keyboard machine over a list of notifications, collecting the
pushed events in order. -/
def kbRun : List KbInput → KeyboardState → KeyboardState × List WEv
  | [], s => (s, [])
  | i :: rest, s =>
    let r1 := kbStep i s
    let r2 := kbRun rest r1.1
    (r2.1, r1.2 ++ r2.2)

/-! ## Pointer state machine (src/wayland_impl/state/pointer.rs) -/

/-- `PointerState`, restricted to the field the dispatch handler reads and
writes (the protocol object handles carry no logic). -/
structure PointerState where
  focused_window : Option Nat
deriving DecidableEq, Repr

/-- `PointerState::default()`. -/
def ptrInit : PointerState :=
  { focused_window := none }

/-- The `wl_pointer` notifications handled by the dispatch handler. -/
inductive PtrInput where
  | enter (surface : Nat) (x y : ℚ)
  | leave (surface : Nat)
  | motion (x y : ℚ)
  | button (pressed : Bool) (code : Nat)
  | buttonUnknownState
  | axis (direction : ScrollDirection) (value : ℚ)
  | axisUnknown
  | frame

/-- One dispatch step of `Dispatch<WlPointer, ()>::event`:

* `Enter`: `take()` the focused window, pushing a synthetic `PointerLeft`
  to it if present; then record the new window and push `PointerEntered`
  followed by a `PointerMoved` carrying the entry coordinates.
* `Leave`: only if the leaving surface is the focused one, clear focus and
  push `PointerLeft` (otherwise logged and dropped).
* `Motion` / `Button` / `Axis` while no window is focused: logged and
  dropped. With focus, translated 1:1 (scroll value sign-flipped).
* Unknown button state / axis, `Frame`: logged or ignored; no event. -/
def ptrStep : PtrInput → PointerState → PointerState × List WEv
  | .enter i x y, s =>
    ({focused_window := some i},
     (match s.focused_window with
      | some old => [⟨Ev.pointerLeft, old⟩]
      | none => []) ++
     [⟨Ev.pointerEntered, i⟩, ⟨Ev.pointerMoved x y, i⟩])
  | .leave i, s =>
    if s.focused_window = some i then
      ({focused_window := none}, [⟨Ev.pointerLeft, i⟩])
    else
      (s, [])
  | .motion x y, s =>
    match s.focused_window with
    | none => (s, [])
    | some i => (s, [⟨Ev.pointerMoved x y, i⟩])
  | .button pressed code, s =>
    match s.focused_window with
    | none => (s, [])
    | some i => (s, [⟨Ev.pointerButton pressed (pointerButtonFrom code), i⟩])
  | .buttonUnknownState, s => (s, [])
  | .axis direction value, s =>
    match s.focused_window with
    | none => (s, [])
    | some i => (s, [⟨Ev.scroll direction (-value), i⟩])
  | .axisUnknown, s => (s, [])
  | .frame, s => (s, [])

/-- Run the pointer machine over a list of notifications. -/
def ptrRun : List PtrInput → PointerState → PointerState × List WEv
  | [], s => (s, [])
  | i :: rest, s =>
    let r1 := ptrStep i s
    let r2 := ptrRun rest r1.1
    (r2.1, r1.2 ++ r2.2)

/-! ## Stream-level focus accounting

Who the delivered stream says is focused, and the well-formedness of the
stream: a gain event may only appear when the stream records nobody as
focused, and a loss event must be addressed to the recorded holder. -/

/-- Keyboard-focus effect of one delivered event on the stream's record. -/
def kbFocusEv (cur : Option Nat) (e : WEv) : Option Nat :=
  match e.ev with
  | Ev.focus true => some e.window_id
  | Ev.focus false => none
  | _ => cur

/-- Keyboard-focus record after a delivered stream. -/
def kbFocusFold (cur : Option Nat) (evs : List WEv) : Option Nat :=
  evs.foldl kbFocusEv cur

/-- Keyboard-focus well-formedness of a delivered stream, starting from a
given record: every `Focus(true)` occurs while nobody is recorded as
focused, and every `Focus(false)` is addressed to the recorded holder. -/
def kbFocusOk (cur : Option Nat) : List WEv → Bool
  | [] => true
  | e :: rest =>
    match e.ev with
    | Ev.focus true => decide (cur = none) && kbFocusOk (some e.window_id) rest
    | Ev.focus false => decide (cur = some e.window_id) && kbFocusOk none rest
    | _ => kbFocusOk cur rest

/-- Pointer-focus effect of one delivered event on the stream's record. -/
def ptrFocusEv (cur : Option Nat) (e : WEv) : Option Nat :=
  match e.ev with
  | Ev.pointerEntered => some e.window_id
  | Ev.pointerLeft => none
  | _ => cur

/-- Pointer-focus record after a delivered stream. -/
def ptrFocusFold (cur : Option Nat) (evs : List WEv) : Option Nat :=
  evs.foldl ptrFocusEv cur

/-- Pointer-focus well-formedness of a delivered stream. -/
def ptrFocusOk (cur : Option Nat) : List WEv → Bool
  | [] => true
  | e :: rest =>
    match e.ev with
    | Ev.pointerEntered => decide (cur = none) && ptrFocusOk (some e.window_id) rest
    | Ev.pointerLeft => decide (cur = some e.window_id) && ptrFocusOk none rest
    | _ => ptrFocusOk cur rest

/-- Paint events addressed to window `i` in a delivered list. -/
def paintCount (evs : List WEv) (i : Nat) : Nat :=
  (evs.filter fun e => decide (e.ev = Ev.paint) && decide (e.window_id = i)).length

/-! ## Concrete fixtures used by witnesses and counterexamples -/

/-- A quiescent window: everything announced, nothing pending, no redraw. -/
def wQuiet : WinState :=
  { id := 1
    size := (800, 600)
    scale := 1
    prevSize := (800, 600)
    prevScale := 1
    pendingSize := none
    redraw := false
    fullscreen := false
    hasViewportScaling := true }

/-- The same window without the fractional-scaling objects bound. -/
def wLegacy : WinState :=
  {wQuiet with id := 3, hasViewportScaling := false}

/-- Two windows with their redraw flags set, as left by `request_redraw`. -/
def wFlagged1 : WinState := {wQuiet with redraw := true}

/-- Second flagged window. -/
def wFlagged2 : WinState := {wQuiet with id := 2, redraw := true}

/-- An application callback that requests exit on the first event it sees. -/
def cbStop : WEv → Bool → Bool := fun _ _ => false

/-- A keymap in which every key repeats. -/
def xkbAllRepeat : Xkb :=
  { keyRepeats := fun _ => true }

/-- Keyboard state: window 1 focused, keymap loaded, repeat parameters set,
no schedule armed. -/
def kbFocused1 : KeyboardState :=
  { repeat_info := some ⟨500, 30⟩
    repeat_sched := none
    armed := false
    focused_window := some 1
    xkb_state := some xkbAllRepeat }

/-- Keyboard state: as `kbFocused1` but with an armed schedule for key 30. -/
def kbArmed1 : KeyboardState :=
  {kbFocused1 with repeat_sched := some ⟨30⟩, armed := true}

/-- Pointer state: window 1 holds pointer focus. -/
def ptrFocused1 : PointerState :=
  { focused_window := some 1 }

/-! ## Helper lemmas -/

/-- Acknowledging any number of times, starting from a state whose pending
size is absent or already equal to the committed size, leaves every field
but the pending size unchanged and keeps the pending size in that set. -/
lemma ackIter_fields (n : Nat) (w : WinState)
    (h : w.pendingSize = none ∨ w.pendingSize = some w.size) :
    (ackIter n w).size = w.size ∧ (ackIter n w).scale = w.scale ∧
    (ackIter n w).prevSize = w.prevSize ∧ (ackIter n w).prevScale = w.prevScale ∧
    (ackIter n w).redraw = w.redraw ∧ (ackIter n w).id = w.id ∧
    ((ackIter n w).pendingSize = none ∨ (ackIter n w).pendingSize = some w.size) := by
  induction n generalizing w with
  | zero => exact ⟨rfl, rfl, rfl, rfl, rfl, rfl, h⟩
  | succ n ih =>
    rcases h with h | h
    · have hstep : (xdg_surface_configure w).1 = {w with pendingSize := some w.size} := by
        simp [xdg_surface_configure, h]
      have := ih {w with pendingSize := some w.size} (Or.inr rfl)
      simpa [ackIter, hstep] using this
    · have hstep : (xdg_surface_configure w).1 = {w with size := w.size} := by
        simp [xdg_surface_configure, h]
      have := ih {w with size := w.size} (Or.inr (by simpa using h))
      simpa [ackIter, hstep] using this

/-- The events emitted by the sweep depend only on the committed and
previously announced configuration, the redraw flag and the id. -/
lemma sweepWindow_events_congr (v u : WinState)
    (h1 : v.size = u.size) (h2 : v.scale = u.scale)
    (h3 : v.prevSize = u.prevSize) (h4 : v.prevScale = u.prevScale)
    (h5 : v.redraw = u.redraw) (h6 : v.id = u.id) :
    (sweepWindow v).2 = (sweepWindow u).2 := by
  simp [sweepWindow, h1, h2, h3, h4, h5, h6]

/-! ## Claims -/

/-- C1: a configure proposal whose width or height is 0 pushes no event,
never changes the window's committed configuration — so the reported
physical and logical sizes are unchanged — and after any number of
subsequent acknowledgments the committed size still equals its value
immediately before the proposal; the sweep that emits Resized events
behaves exactly as it would have without the proposal, so the proposal
never produces a Resized event. -/
theorem degenerate_configure_preserves_size (w : WinState) (width height : Int)
    (hdeg : width = 0 ∨ height = 0) :
    (winStep (.toplevelConfigure width height) w).2 = [] ∧
    (winStep (.toplevelConfigure width height) w).1.size = w.size ∧
    (winStep (.toplevelConfigure width height) w).1.scale = w.scale ∧
    physical_size (winStep (.toplevelConfigure width height) w).1 = physical_size w ∧
    logical_size (winStep (.toplevelConfigure width height) w).1 = logical_size w ∧
    ∀ n : Nat,
      (ackIter n (winStep (.toplevelConfigure width height) w).1).size = w.size ∧
      (ackIter n (winStep (.toplevelConfigure width height) w).1).scale = w.scale ∧
      physical_size (ackIter n (winStep (.toplevelConfigure width height) w).1) = physical_size w ∧
      logical_size (ackIter n (winStep (.toplevelConfigure width height) w).1) = logical_size w ∧
      (sweepWindow (ackIter n (winStep (.toplevelConfigure width height) w).1)).2 =
        (sweepWindow w).2 := by
  have hstep : winStep (.toplevelConfigure width height) w =
      ({w with pendingSize := none}, []) := by
    rcases hdeg with h | h <;> simp [winStep, xdg_toplevel_configure, h]
  rw [hstep]
  refine ⟨rfl, rfl, rfl, rfl, rfl, fun n => ?_⟩
  have hfields := ackIter_fields n {w with pendingSize := none} (Or.inl rfl)
  obtain ⟨h1, h2, h3, h4, h5, h6, -⟩ := hfields
  refine ⟨by simpa using h1, by simpa using h2, ?_, ?_, ?_⟩
  · rw [physical_size, h1, h2]; rfl
  · rw [logical_size, h1, h2]; rfl
  · exact sweepWindow_events_congr _ w (by simpa using h1) (by simpa using h2)
      (by simpa using h3) (by simpa using h4) (by simpa using h5) (by simpa using h6)

/-- C1 witness: the degenerate proposal (0, 600) against the quiescent
window, acknowledged five times. -/
theorem degenerate_configure_preserves_size_witness :
    ((0 : Int) = 0 ∨ (600 : Int) = 0) ∧
    (ackIter 5 (winStep (.toplevelConfigure 0 600) wQuiet).1).size = wQuiet.size ∧
    physical_size (winStep (.toplevelConfigure 0 600) wQuiet).1 = physical_size wQuiet :=
  ⟨Or.inl rfl,
   ((degenerate_configure_preserves_size wQuiet 0 600 (Or.inl rfl)).2.2.2.2.2 5).1,
   (degenerate_configure_preserves_size wQuiet 0 600 (Or.inl rfl)).2.2.2.1⟩

/-- C10: a degenerate configure proposal clears a previously stored pending
proposal: propose a non-degenerate size, then a degenerate one, then
acknowledge — the committed configuration stays at its value from before
both proposals, so the earlier non-degenerate proposal is never
committed. -/
theorem degenerate_clears_pending (w : WinState) (a b c d : Int)
    (hok : ¬(a = 0 ∨ b = 0)) (hdeg : c = 0 ∨ d = 0) :
    (winStep (.toplevelConfigure a b) w).1.pendingSize = some (a, b) ∧
    (winStep (.toplevelConfigure c d) (winStep (.toplevelConfigure a b) w).1).1.pendingSize =
      none ∧
    (winStep .surfaceConfigure
      (winStep (.toplevelConfigure c d) (winStep (.toplevelConfigure a b) w).1).1).1.size =
      w.size ∧
    (winStep .surfaceConfigure
      (winStep (.toplevelConfigure c d) (winStep (.toplevelConfigure a b) w).1).1).1.scale =
      w.scale ∧
    physical_size (winStep .surfaceConfigure
      (winStep (.toplevelConfigure c d) (winStep (.toplevelConfigure a b) w).1).1).1 =
      physical_size w := by
  rcases hdeg with h | h <;>
    simp [winStep, xdg_toplevel_configure, xdg_surface_configure, hok, h, physical_size]

/-- C10 witness: propose (1024, 768), then (0, 0), then acknowledge. -/
theorem degenerate_clears_pending_witness :
    (¬((1024 : Int) = 0 ∨ (768 : Int) = 0)) ∧
    (winStep (.toplevelConfigure 0 0) (winStep (.toplevelConfigure 1024 768) wQuiet).1).1.pendingSize
      = none ∧
    (winStep .surfaceConfigure
      (winStep (.toplevelConfigure 0 0) (winStep (.toplevelConfigure 1024 768) wQuiet).1).1).1.size
      = wQuiet.size :=
  ⟨by decide,
   (degenerate_clears_pending wQuiet 1024 768 0 0 (by decide) (Or.inl rfl)).2.1,
   (degenerate_clears_pending wQuiet 1024 768 0 0 (by decide) (Or.inl rfl)).2.2.1⟩

/-- C2 counterexample: the claim says the committed configuration — both
size and scale — is only ever updated from the pending configuration and
only inside the configure-acknowledgment step. The fractional-scale
handler refutes this for the scale: a `PreferredScale 180` notification
updates the committed scale from 1 to 3/2 directly, with no
acknowledgment involved and the pending proposal (which holds only a size
and no scale at all) untouched. -/
theorem committed_scale_bypasses_ack_cex :
    (winStep (.fractionalScale 180) wQuiet).1.scale = 3 / 2 ∧
    wQuiet.scale = 1 ∧ ((3 : ℚ) / 2 ≠ 1) ∧
    (winStep (.fractionalScale 180) wQuiet).1.pendingSize = none ∧
    wQuiet.pendingSize = none ∧
    (winStep (.fractionalScale 180) wQuiet).1.size = wQuiet.size := by
  refine ⟨?_, rfl, by norm_num, rfl, rfl, rfl⟩
  show (180 : ℚ) / 120 = 3 / 2
  norm_num

/-- C2 amended: the committed *size* is only ever updated from the pending
size, and only inside the configure-acknowledgment step; the pending size
may be overwritten any number of times before commit and only the last
proposal takes effect. The committed *scale* has no pending stage: scale
notifications write it directly, outside the acknowledgment step. -/
theorem committed_size_only_via_ack :
    (∀ (w : WinState) (i : WinInput), i ≠ WinInput.surfaceConfigure →
      (winStep i w).1.size = w.size) ∧
    (∀ (w : WinState) (s : Int × Int), w.pendingSize = some s →
      (winStep .surfaceConfigure w).1.size = s) ∧
    (∀ w : WinState, w.pendingSize = none →
      (winStep .surfaceConfigure w).1.size = w.size ∧
      (winStep .surfaceConfigure w).1.pendingSize = some w.size) ∧
    (∀ (w : WinState) (a b c d : Int), ¬(c = 0 ∨ d = 0) →
      (winStep (.toplevelConfigure c d) (winStep (.toplevelConfigure a b) w).1).1.pendingSize =
        some (c, d)) ∧
    (∀ (w : WinState) (n : Nat), (winStep (.fractionalScale n) w).1.scale = (n : ℚ) / 120) ∧
    (∀ (w : WinState) (f : Int), w.hasViewportScaling = false →
      (winStep (.bufferScale f) w).1.scale = (f : ℚ)) := by
  refine ⟨?_, ?_, ?_, ?_, ?_, ?_⟩
  · intro w i hi
    cases i with
    | toplevelConfigure a b =>
      by_cases h : a = 0 ∨ b = 0
      · rcases h with h | h <;> simp [winStep, xdg_toplevel_configure, h]
      · simp [winStep, xdg_toplevel_configure, h]
    | surfaceConfigure => exact absurd rfl hi
    | toplevelClose => rfl
    | bufferScale f =>
      by_cases h : w.hasViewportScaling <;> simp [winStep, preferred_buffer_scale, h]
    | fractionalScale n => rfl
  · intro w s h
    simp [winStep, xdg_surface_configure, h]
  · intro w h
    simp [winStep, xdg_surface_configure, h]
  · intro w a b c d h
    by_cases h' : a = 0 ∨ b = 0
    · rcases h' with h' | h' <;> simp [winStep, xdg_toplevel_configure, h, h']
    · simp [winStep, xdg_toplevel_configure, h, h']
  · intro w n
    rfl
  · intro w f h
    simp [winStep, preferred_buffer_scale, h]

/-- C2 amended witness: a non-acknowledgment input leaves the committed
size alone; acknowledging commits the stored pending size; the second of
two proposals wins. -/
theorem committed_size_only_via_ack_witness :
    (winStep (.fractionalScale 240) wQuiet).1.size = wQuiet.size ∧
    (winStep .surfaceConfigure {wQuiet with pendingSize := some (1024, 768)}).1.size =
      (1024, 768) ∧
    (winStep (.toplevelConfigure 640 480)
      (winStep (.toplevelConfigure 320 200) wQuiet).1).1.pendingSize = some (640, 480) :=
  ⟨committed_size_only_via_ack.1 wQuiet (.fractionalScale 240) (by decide),
   committed_size_only_via_ack.2.1 {wQuiet with pendingSize := some (1024, 768)} (1024, 768) rfl,
   committed_size_only_via_ack.2.2.2.1 wQuiet 320 200 640 480 (by decide)⟩

/-- C9: a pointer motion, button, or scroll notification arriving while no
window holds pointer focus is dropped: no event is pushed and the pointer
state is left entirely unchanged. -/
theorem pointer_unfocused_dropped (s : PointerState) (x y : ℚ) (pressed : Bool)
    (code : Nat) (dir : ScrollDirection) (v : ℚ) (h : s.focused_window = none) :
    ptrStep (.motion x y) s = (s, []) ∧
    ptrStep (.button pressed code) s = (s, []) ∧
    ptrStep (.axis dir v) s = (s, []) := by
  refine ⟨?_, ?_, ?_⟩ <;> simp [ptrStep, h]

/-- C9 witness: a motion, a left-button press, and a vertical scroll
against the initial (unfocused) pointer state. -/
theorem pointer_unfocused_dropped_witness :
    ptrStep (.motion 10 20) ptrInit = (ptrInit, []) ∧
    ptrStep (.button true 0x110) ptrInit = (ptrInit, []) ∧
    ptrStep (.axis .vertical 5) ptrInit = (ptrInit, []) :=
  pointer_unfocused_dropped ptrInit 10 20 true 0x110 .vertical 5 rfl

/-- Setting the redraw flag one or more times is idempotent. -/
lemma request_redraw_iterate (w : WinState) (n : Nat) :
    request_redraw^[n + 1] w = {w with redraw := true} := by
  induction n generalizing w with
  | zero => rfl
  | succ n ih =>
    rw [Function.iterate_succ_apply, ih (request_redraw w)]
    rfl

/-- C4: any number `n ≥ 1` of redraw-flag sets before an iteration's drain
produces exactly one Paint event for that window in that iteration
(compare-and-clear read of an idempotent flag), and an iteration in which
the flag was never set delivers no Paint event for that window. -/
theorem redraw_coalescing (cb : WEv → Bool → Bool) (w : WinState) (r : Bool) (n : Nat)
    (hn : 1 ≤ n) :
    paintCount (deliverSweep cb [request_redraw^[n] w] r).2.1 w.id = 1 ∧
    (w.redraw = false → paintCount (deliverSweep cb [w] r).2.1 w.id = 0) := by
  obtain ⟨m, rfl⟩ : ∃ m, n = m + 1 := ⟨n - 1, (Nat.succ_pred_eq_of_pos hn).symm⟩
  rw [request_redraw_iterate]
  constructor
  · simp [deliverSweep, reset_redraw, paintCount]
  · intro h
    simp [deliverSweep, reset_redraw, h, paintCount]

/-- C4 witness: three consecutive `request_redraw` calls against the
quiescent window yield one Paint, and the untouched window yields none. -/
theorem redraw_coalescing_witness :
    (1 ≤ 3) ∧
    paintCount (deliverSweep cbStop [request_redraw^[3] wQuiet] true).2.1 wQuiet.id = 1 ∧
    paintCount (deliverSweep cbStop [wQuiet] true).2.1 wQuiet.id = 0 :=
  ⟨by decide, (redraw_coalescing cbStop wQuiet true 3 (by decide)).1,
   (redraw_coalescing cbStop wQuiet true 3 (by decide)).2 rfl⟩

/-- C6 counterexample: the claim says that once the callback sets the
continue flag to false, `run` returns without delivering any of the
remaining queued events of that iteration. In `Waywin::run` the flag is
only consulted at the top of the `while` loop: with two windows whose
redraw flags are set and a callback that clears the flag on the very first
event, the sweep still delivers the second window's Paint event. -/
theorem continue_flag_mid_sweep_cex :
    (deliverSweep cbStop [wFlagged1, wFlagged2] true).2.1 =
      [⟨Ev.paint, 1⟩, ⟨Ev.paint, 2⟩] ∧
    cbStop ⟨Ev.paint, 1⟩ true = false ∧
    (deliverSweep cbStop [wFlagged1, wFlagged2] true).2.2 = false := by
  refine ⟨rfl, rfl, rfl⟩

/-- C6 amended: the continue flag is consulted once per loop iteration, at
the top of the `while`: the events an iteration's sweep delivers are a
function of the windows' redraw flags alone — the callback's writes to the
flag never suppress the remaining deliveries of that same sweep — and once
the flag is false at an iteration boundary, `run` delivers nothing
further. -/
theorem continue_flag_iteration_boundary :
    (∀ (cb : WEv → Bool → Bool) (ws : List WinState) (r : Bool),
      (deliverSweep cb ws r).2.1 =
        (ws.filter fun w => w.redraw).map fun w => (⟨Ev.paint, w.id⟩ : WEv)) ∧
    (∀ (cb : WEv → Bool → Bool) (fuel : Nat) (ws : List WinState),
      runLoop cb (fuel + 1) ws false = (ws, [])) := by
  constructor
  · intro cb ws r
    induction ws generalizing r with
    | nil => rfl
    | cons w ws ih =>
      cases h : w.redraw <;> simp [deliverSweep, reset_redraw, h, ih]
  · intro cb fuel ws
    simp [runLoop]

/-- Splitting a delivered stream splits the keyboard-focus record. -/
lemma kbFocusFold_append (a b : List WEv) (cur : Option Nat) :
    kbFocusFold cur (a ++ b) = kbFocusFold (kbFocusFold cur a) b := by
  simp [kbFocusFold, List.foldl_append]

/-- Keyboard-focus well-formedness composes along concatenation. -/
lemma kbFocusOk_append (a b : List WEv) (cur : Option Nat) :
    kbFocusOk cur (a ++ b) = (kbFocusOk cur a && kbFocusOk (kbFocusFold cur a) b) := by
  induction a generalizing cur with
  | nil => simp [kbFocusOk, kbFocusFold]
  | cons e rest ih =>
    obtain ⟨ev, i⟩ := e
    cases ev with
    | focus gained =>
      cases gained <;>
        simp [kbFocusOk, kbFocusFold, kbFocusEv, ih, Bool.and_assoc]
    | _ => simp [kbFocusOk, kbFocusFold, kbFocusEv, ih]

/-- Splitting a delivered stream splits the pointer-focus record. -/
lemma ptrFocusFold_append (a b : List WEv) (cur : Option Nat) :
    ptrFocusFold cur (a ++ b) = ptrFocusFold (ptrFocusFold cur a) b := by
  simp [ptrFocusFold, List.foldl_append]

/-- Pointer-focus well-formedness composes along concatenation. -/
lemma ptrFocusOk_append (a b : List WEv) (cur : Option Nat) :
    ptrFocusOk cur (a ++ b) = (ptrFocusOk cur a && ptrFocusOk (ptrFocusFold cur a) b) := by
  induction a generalizing cur with
  | nil => simp [ptrFocusOk, ptrFocusFold]
  | cons e rest ih =>
    obtain ⟨ev, i⟩ := e
    cases ev <;> simp [ptrFocusOk, ptrFocusFold, ptrFocusEv, ih, Bool.and_assoc]

/-- One keyboard dispatch step emits a stream that is well-formed with
respect to the machine's focus record, and leaves the stream's record
equal to the machine's new focus record. -/
lemma kbStep_focus_inv (inp : KbInput) (s : KeyboardState) :
    kbFocusOk s.focused_window (kbStep inp s).2 = true ∧
    kbFocusFold s.focused_window (kbStep inp s).2 = (kbStep inp s).1.focused_window := by
  cases inp with
  | keymap x => simp [kbStep, kbFocusOk, kbFocusFold]
  | enter i =>
    cases h : s.focused_window <;>
      simp [kbStep, h, kbFocusOk, kbFocusFold, kbFocusEv]
  | leave i =>
    by_cases h : s.focused_window = some i <;>
      simp [kbStep, h, kbFocusOk, kbFocusFold, kbFocusEv]
  | key pressed keycode =>
    cases pressed
    · cases hf : s.focused_window with
      | none => simp [kbStep, hf, kbFocusOk, kbFocusFold]
      | some i =>
        cases hx : s.xkb_state <;>
          cases hrs : s.repeat_sched <;>
            simp only [kbStep, hf, hx, hrs] <;>
              (try split) <;>
                simp [generate_up_event, kbFocusOk, kbFocusFold, kbFocusEv, hf]
    · cases hf : s.focused_window with
      | none => simp [kbStep, hf, kbFocusOk, kbFocusFold]
      | some i =>
        cases hx : s.xkb_state with
        | none => simp [kbStep, hf, hx, kbFocusOk, kbFocusFold]
        | some x =>
          by_cases hr : x.keyRepeats (keycode + 8)
          · cases hri : s.repeat_info <;>
              simp [kbStep, hf, hx, hr, hri, generate_down_event, kbFocusOk, kbFocusFold,
                kbFocusEv]
          · simp [kbStep, hf, hx, hr, generate_down_event, kbFocusOk, kbFocusFold, kbFocusEv]
  | keyUnknownState => simp [kbStep, kbFocusOk, kbFocusFold]
  | modifiers => simp [kbStep, kbFocusOk, kbFocusFold]
  | repeatInfoEv rate delay =>
    by_cases h : rate = 0 <;> simp [kbStep, h, kbFocusOk, kbFocusFold]
  | timerFire =>
    cases ha : s.armed <;>
      cases hrs : s.repeat_sched <;>
        cases hf : s.focused_window <;>
          cases hri : s.repeat_info <;>
            simp [kbStep, ha, hrs, hf, hri, generate_down_event, kbFocusOk, kbFocusFold,
              kbFocusEv]

/-- Focus invariant for whole keyboard runs. -/
lemma kbRun_focus_inv (ins : List KbInput) (s : KeyboardState) :
    kbFocusOk s.focused_window (kbRun ins s).2 = true ∧
    kbFocusFold s.focused_window (kbRun ins s).2 = (kbRun ins s).1.focused_window := by
  induction ins generalizing s with
  | nil => simp [kbRun, kbFocusOk, kbFocusFold]
  | cons i rest ih =>
    have h1 := kbStep_focus_inv i s
    have h2 := ih (kbStep i s).1
    constructor
    · rw [kbRun, kbFocusOk_append, h1.1, h1.2, h2.1]
      rfl
    · rw [kbRun, kbFocusFold_append, h1.2, h2.2]

/-- One pointer dispatch step emits a stream that is well-formed with
respect to the machine's focus record, and leaves the stream's record
equal to the machine's new focus record. -/
lemma ptrStep_focus_inv (inp : PtrInput) (s : PointerState) :
    ptrFocusOk s.focused_window (ptrStep inp s).2 = true ∧
    ptrFocusFold s.focused_window (ptrStep inp s).2 = (ptrStep inp s).1.focused_window := by
  cases inp with
  | enter i x y =>
    cases h : s.focused_window <;>
      simp [ptrStep, h, ptrFocusOk, ptrFocusFold, ptrFocusEv]
  | leave i =>
    by_cases h : s.focused_window = some i <;>
      simp [ptrStep, h, ptrFocusOk, ptrFocusFold, ptrFocusEv]
  | motion x y =>
    cases h : s.focused_window <;>
      simp [ptrStep, h, ptrFocusOk, ptrFocusFold, ptrFocusEv]
  | button pressed code =>
    cases h : s.focused_window <;>
      simp [ptrStep, h, ptrFocusOk, ptrFocusFold, ptrFocusEv]
  | buttonUnknownState => simp [ptrStep, ptrFocusOk, ptrFocusFold]
  | axis dir v =>
    cases h : s.focused_window <;>
      simp [ptrStep, h, ptrFocusOk, ptrFocusFold, ptrFocusEv]
  | axisUnknown => simp [ptrStep, ptrFocusOk, ptrFocusFold]
  | frame => simp [ptrStep, ptrFocusOk, ptrFocusFold]

/-- Focus invariant for whole pointer runs. -/
lemma ptrRun_focus_inv (ins : List PtrInput) (s : PointerState) :
    ptrFocusOk s.focused_window (ptrRun ins s).2 = true ∧
    ptrFocusFold s.focused_window (ptrRun ins s).2 = (ptrRun ins s).1.focused_window := by
  induction ins generalizing s with
  | nil => simp [ptrRun, ptrFocusOk, ptrFocusFold]
  | cons i rest ih =>
    have h1 := ptrStep_focus_inv i s
    have h2 := ih (ptrStep i s).1
    constructor
    · rw [ptrRun, ptrFocusOk_append, h1.1, h1.2, h2.1]
      rfl
    · rw [ptrRun, ptrFocusFold_append, h1.2, h2.2]

/-- C3: over every sequence of keyboard (resp. pointer) notifications from
the initial state, the delivered stream is focus-exclusive: every
`Focus(true)` (resp. `PointerEntered`) occurs at a point where the stream
records no focused window, and every `Focus(false)` (resp. `PointerLeft`)
is addressed to the recorded holder — so at most one window is focused at
any point and a second gain is never observed without an intervening loss.
Moreover, when an Enter notification arrives while a previous window is
still recorded as focused, the handler emits the synthetic
`Focus(false)` / `PointerLeft` for the previous window before the
`Focus(true)` / `PointerEntered` (and entry-motion) for the new one. -/
theorem focus_exclusivity :
    (∀ kIns : List KbInput, kbFocusOk none (kbRun kIns kbInit).2 = true) ∧
    (∀ pIns : List PtrInput, ptrFocusOk none (ptrRun pIns ptrInit).2 = true) ∧
    (∀ (s : KeyboardState) (old i : Nat), s.focused_window = some old →
      (kbStep (.enter i) s).2 = [⟨Ev.focus false, old⟩, ⟨Ev.focus true, i⟩] ∧
      (kbStep (.enter i) s).1.focused_window = some i) ∧
    (∀ (p : PointerState) (old i : Nat) (x y : ℚ), p.focused_window = some old →
      (ptrStep (.enter i x y) p).2 =
        [⟨Ev.pointerLeft, old⟩, ⟨Ev.pointerEntered, i⟩, ⟨Ev.pointerMoved x y, i⟩] ∧
      (ptrStep (.enter i x y) p).1.focused_window = some i) := by
  refine ⟨?_, ?_, ?_, ?_⟩
  · intro kIns
    exact (kbRun_focus_inv kIns kbInit).1
  · intro pIns
    exact (ptrRun_focus_inv pIns ptrInit).1
  · intro s old i h
    exact ⟨by simp [kbStep, h], by simp [kbStep]⟩
  · intro p old i x y h
    exact ⟨by simp [ptrStep, h], by simp [ptrStep]⟩

/-- C3 witness: entering window 2 while window 1 is still focused emits
the synthetic loss first, on both devices. -/
theorem focus_exclusivity_witness :
    (kbStep (.enter 2) kbFocused1).2 = [⟨Ev.focus false, 1⟩, ⟨Ev.focus true, 2⟩] ∧
    (ptrStep (.enter 2 0 0) ptrFocused1).2 =
      [⟨Ev.pointerLeft, 1⟩, ⟨Ev.pointerEntered, 2⟩, ⟨Ev.pointerMoved 0 0, 2⟩] :=
  ⟨(focus_exclusivity.2.2.1 kbFocused1 1 2 rfl).1,
   (focus_exclusivity.2.2.2 ptrFocused1 1 2 0 0 rfl).1⟩

/-- C7 counterexample: the claim says a firing repeat timer re-emits only
if the window that received the original key-down is still focused, and
otherwise emits nothing for any window. Arm the repeat in window 1 with a
key-down, move focus to window 2 via an Enter without an intervening
Leave (the schedule is then not cancelled), and fire: the handler emits
the repeated key-down addressed to window 2, the currently focused window
— not nothing, and not window 1. -/
theorem repeat_fire_original_focus_cex :
    ((kbStep (.key true 30) kbFocused1).1.focused_window = some 1) ∧
    ((kbStep (.enter 2) (kbStep (.key true 30) kbFocused1).1).1.focused_window = some 2) ∧
    ((kbStep (.enter 2) (kbStep (.key true 30) kbFocused1).1).1.armed = true) ∧
    ((kbStep (.enter 2) (kbStep (.key true 30) kbFocused1).1).1.repeat_sched = some ⟨30⟩) ∧
    (kbStep .timerFire (kbStep (.enter 2) (kbStep (.key true 30) kbFocused1).1).1).2 =
      [⟨Ev.key true 30, 2⟩] := by
  refine ⟨rfl, rfl, rfl, rfl, rfl⟩

/-- C7 amended: when an armed repeat timer fires, the captured key-down is
re-emitted to the *currently* keyboard-focused window provided some window
is focused and repeat parameters are still set; if no window is focused,
or repeat was disabled, the schedule is dropped silently with no event.
Focus loss through a Leave notification always cancels the schedule, so
only an Enter-without-Leave can redirect a repeat to a different window
than the original. -/
theorem repeat_fire_current_focus (s : KeyboardState) (rs : RepeatSched)
    (hs : s.repeat_sched = some rs) (ha : s.armed = true) :
    (s.focused_window = none → kbStep .timerFire s = ({s with armed := false}, [])) ∧
    (∀ i, s.focused_window = some i → s.repeat_info = none →
      kbStep .timerFire s = ({s with armed := false}, [])) ∧
    (∀ i ri, s.focused_window = some i → s.repeat_info = some ri →
      kbStep .timerFire s = (s, [⟨generate_down_event rs.key, i⟩])) ∧
    (∀ j, (kbStep (.leave j) s).1.armed = false ∧
      (kbStep (.leave j) s).1.repeat_sched = none) := by
  refine ⟨?_, ?_, ?_, ?_⟩
  · intro h
    simp [kbStep, hs, ha, h]
  · intro i h hri
    simp [kbStep, hs, ha, h, hri]
  · intro i ri h hri
    simp [kbStep, hs, ha, h, hri]
  · intro j
    by_cases h : s.focused_window = some j <;> simp [kbStep, h]

/-- C7 amended witness: firing the armed schedule for key 30 while window
1 is focused re-emits the down event to window 1. -/
theorem repeat_fire_current_focus_witness :
    kbStep .timerFire kbArmed1 = (kbArmed1, [⟨Ev.key true 30, 1⟩]) :=
  (repeat_fire_current_focus kbArmed1 ⟨30⟩ rfl rfl).2.2.1 1 ⟨500, 30⟩ rfl rfl

/-- C8: with a window focused, a key release cancels the active repeat
schedule exactly when the schedule belongs to the released key. In the
scenario "repeatable key `a` down, repeatable key `b` down, key `a` up":
`b`'s key-down replaces `a`'s schedule with `b`'s, `a`'s release leaves
`b`'s schedule (state) completely untouched and emits only `a`'s up event,
and a subsequent timer fire emits only `b`-down events — no further
`a`-down events occur after `a`'s release. -/
theorem repeat_cancel_same_key (s : KeyboardState) (a b i : Nat) (x : Xkb) (ri : RepeatInfo)
    (hf : s.focused_window = some i) (hx : s.xkb_state = some x)
    (hri : s.repeat_info = some ri) (hra : x.keyRepeats (a + 8) = true)
    (hrb : x.keyRepeats (b + 8) = true) (hab : a ≠ b) :
    ((kbStep (.key true a) s).1.repeat_sched = some ⟨a⟩) ∧
    ((kbStep (.key true b) (kbStep (.key true a) s).1).1.repeat_sched = some ⟨b⟩) ∧
    ((kbStep (.key false a) (kbStep (.key true b) (kbStep (.key true a) s).1).1).1 =
      (kbStep (.key true b) (kbStep (.key true a) s).1).1) ∧
    ((kbStep (.key false a) (kbStep (.key true b) (kbStep (.key true a) s).1).1).2 =
      [⟨Ev.key false a, i⟩]) ∧
    (∀ e ∈ (kbStep .timerFire
        (kbStep (.key false a) (kbStep (.key true b) (kbStep (.key true a) s).1).1).1).2,
      e.ev = Ev.key true b) ∧
    (∀ (t : KeyboardState) (rs : RepeatSched) (k j : Nat), t.focused_window = some j →
      t.repeat_sched = some rs → rs.key ≠ k →
      (kbStep (.key false k) t).1.repeat_sched = some rs ∧
      (kbStep (.key false k) t).1.armed = t.armed) ∧
    (∀ (t : KeyboardState) (rs : RepeatSched) (j : Nat), t.focused_window = some j →
      t.repeat_sched = some rs →
      (kbStep (.key false rs.key) t).1.repeat_sched = none ∧
      (kbStep (.key false rs.key) t).1.armed = false) := by
  have h1 : kbStep (.key true a) s =
      ({s with repeat_sched := some ⟨a⟩, armed := true}, [⟨Ev.key true a, i⟩]) := by
    simp [kbStep, hf, hx, hri, hra, generate_down_event]
  have h2 : kbStep (.key true b) ({s with repeat_sched := some ⟨a⟩, armed := true}) =
      ({s with repeat_sched := some ⟨b⟩, armed := true}, [⟨Ev.key true b, i⟩]) := by
    simp [kbStep, hf, hx, hri, hrb, generate_down_event]
  have hba : ¬((b : Nat) = a) := fun h => hab h.symm
  have h3 : kbStep (.key false a) ({s with repeat_sched := some ⟨b⟩, armed := true}) =
      ({s with repeat_sched := some ⟨b⟩, armed := true}, [⟨Ev.key false a, i⟩]) := by
    simp [kbStep, hf, hx, hba, generate_up_event]
  have h4 : kbStep .timerFire ({s with repeat_sched := some ⟨b⟩, armed := true}) =
      ({s with repeat_sched := some ⟨b⟩, armed := true}, [⟨Ev.key true b, i⟩]) := by
    simp [kbStep, hf, hri, generate_down_event]
  refine ⟨?_, ?_, ?_, ?_, ?_, ?_, ?_⟩
  · rw [h1]
  · rw [h1, h2]
  · rw [h1, h2, h3]
  · rw [h1, h2, h3]
  · rw [h1, h2, h3, h4]
    intro e he
    simp at he
    rw [he]
  · intro t rs k j htf hts hk
    have hk' : ¬(rs.key = k) := hk
    cases htx : t.xkb_state <;> simp [kbStep, htf, hts, htx, hk']
  · intro t rs j htf hts
    cases htx : t.xkb_state <;> simp [kbStep, htf, hts, htx]

/-- C8 witness: key 30 down, key 48 down, key 30 up — the surviving
schedule is key 48's, untouched by 30's release. -/
theorem repeat_cancel_same_key_witness :
    ((kbStep (.key true 48) (kbStep (.key true 30) kbFocused1).1).1.repeat_sched =
      some ⟨48⟩) ∧
    ((kbStep (.key false 30)
        (kbStep (.key true 48) (kbStep (.key true 30) kbFocused1).1).1).1 =
      (kbStep (.key true 48) (kbStep (.key true 30) kbFocused1).1).1) :=
  ⟨(repeat_cancel_same_key kbFocused1 30 48 1 xkbAllRepeat ⟨500, 30⟩ rfl rfl rfl rfl rfl
      (by decide)).2.1,
   (repeat_cancel_same_key kbFocused1 30 48 1 xkbAllRepeat ⟨500, 30⟩ rfl rfl rfl rfl rfl
      (by decide)).2.2.1⟩

/-- C5 (sweep modelled from the spec): a scale-change notification — a
fractional-scale update, or a legacy integer buffer-scale hint on a window
where the fractional path is not bound — pushes no event itself but
rewrites the committed scale directly, with no acknowledgment step in the
path (the pending proposal is untouched); the following sweep of a
previously quiescent window then emits `NewScaleFactor`, then `Resized`
exactly when the physical size changed, then `Paint` (the redraw flag
having been marked by the change). -/
theorem scale_change_events (w v : WinState) (n : Nat) (f : Int)
    (hwp : w.prevScale = w.scale) (hws : w.prevSize = w.size)
    (hn : (n : ℚ) / 120 ≠ w.scale)
    (hv : v.hasViewportScaling = false) (hvp : v.prevScale = v.scale)
    (hvs : v.prevSize = v.size) (hf : (f : ℚ) ≠ v.scale) :
    ((winStep (.fractionalScale n) w).2 = [] ∧
     (winStep (.fractionalScale n) w).1.scale = (n : ℚ) / 120 ∧
     (winStep (.fractionalScale n) w).1.size = w.size ∧
     (winStep (.fractionalScale n) w).1.pendingSize = w.pendingSize ∧
     (sweepWindow (winStep (.fractionalScale n) w).1).2 =
       ⟨Ev.newScaleFactor, w.id⟩ ::
         ((if physical_size (winStep (.fractionalScale n) w).1 = physical_size w
            then ([] : List WEv) else [⟨Ev.resized, w.id⟩]) ++ [⟨Ev.paint, w.id⟩])) ∧
    ((winStep (.bufferScale f) v).2 = [] ∧
     (winStep (.bufferScale f) v).1.scale = (f : ℚ) ∧
     (winStep (.bufferScale f) v).1.size = v.size ∧
     (winStep (.bufferScale f) v).1.pendingSize = v.pendingSize ∧
     (sweepWindow (winStep (.bufferScale f) v).1).2 =
       ⟨Ev.newScaleFactor, v.id⟩ ::
         ((if physical_size (winStep (.bufferScale f) v).1 = physical_size v
            then ([] : List WEv) else [⟨Ev.resized, v.id⟩]) ++ [⟨Ev.paint, v.id⟩])) := by
  constructor
  · refine ⟨rfl, rfl, rfl, rfl, ?_⟩
    by_cases hps : physOf w.size ((n : ℚ) / 120) = physOf w.size w.scale <;>
      simp [sweepWindow, physical_size, winStep, preferred_fractional_scale, hwp, hws, hn, hps]
  · have hstep : winStep (.bufferScale f) v = ({v with scale := (f : ℚ)}, []) := by
      simp [winStep, preferred_buffer_scale, hv]
    rw [hstep]
    refine ⟨rfl, rfl, rfl, rfl, ?_⟩
    by_cases hps : physOf v.size ((f : ℚ)) = physOf v.size v.scale <;>
      simp [sweepWindow, physical_size, hvp, hvs, hf, hps]

/-- C5 witness: a fractional-scale update to 180/120 = 1.5 on the quiescent
window at scale 1, and a legacy hint of 2 on the legacy window. -/
theorem scale_change_events_witness :
    ((180 : ℚ) / 120 ≠ wQuiet.scale) ∧
    ((2 : ℤ) : ℚ) ≠ wLegacy.scale ∧
    (sweepWindow (winStep (.fractionalScale 180) wQuiet).1).2 =
      ⟨Ev.newScaleFactor, wQuiet.id⟩ ::
        ((if physical_size (winStep (.fractionalScale 180) wQuiet).1 = physical_size wQuiet
           then ([] : List WEv) else [⟨Ev.resized, wQuiet.id⟩]) ++ [⟨Ev.paint, wQuiet.id⟩]) ∧
    (sweepWindow (winStep (.bufferScale 2) wLegacy).1).2 =
      ⟨Ev.newScaleFactor, wLegacy.id⟩ ::
        ((if physical_size (winStep (.bufferScale 2) wLegacy).1 = physical_size wLegacy
           then ([] : List WEv) else [⟨Ev.resized, wLegacy.id⟩]) ++ [⟨Ev.paint, wLegacy.id⟩]) :=
  ⟨by norm_num [wQuiet], by norm_num [wLegacy, wQuiet],
   (scale_change_events wQuiet wLegacy 180 2 rfl rfl (by norm_num [wQuiet]) rfl rfl rfl
      (by norm_num [wLegacy, wQuiet])).1.2.2.2.2,
   (scale_change_events wQuiet wLegacy 180 2 rfl rfl (by norm_num [wQuiet]) rfl rfl rfl
      (by norm_num [wLegacy, wQuiet])).2.2.2.2.2⟩

end Waywin
